import Mathlib

/-
Verification of the German number simplifier (src/main.py).

The transformation pipeline of `simplify_numbers` is embedded shallowly:

* Text is `List Char` (Python string indexing/slicing is code-point based,
  matching `List Char` positions); the entry point wraps `String`.
* Python floats produced by the program are always exact decimal values
  (digits with an optional decimal part), and they are only compared with
  integers, rounded, or divided by powers of ten.  They are therefore
  embedded as exact decimal fixed-point numbers `DecNum` (value =
  mant / 10 ^ exp); `toRat` interprets them in `ℚ`.
* Python `round` (round half to even, banker's rounding) is `pyRound`.
* Python `\d` for str patterns matches any Unicode decimal digit (category
  Nd), and `float` parses such digits; `isDigitC`/`digitVal` model this
  with the ASCII digits together with the common non-ASCII decimal-digit
  blocks listed in `ndBases`.  `\s` and `str.isspace` are modelled as
  ASCII whitespace, faithful for the German-prose inputs considered here.
* The two regexes of the program are deterministic greedy matchers (every
  element after the leading `\d+` can match the empty string, and no
  shorter choice of a digit run can ever enable a later element, since each
  later element starts with a non-digit), so they are embedded as greedy
  functional matchers `matchPercentAt` / `matchQuantAt`.
* The one uncaught exception the code can raise (an IndexError from
  `before_words[-1]` in `is_year`) is modelled by `Option`: `is_year`
  returns `none` there and the pipeline propagates it, so
  `simplify_numbers` returns `none` exactly when the Python code raises.
-/

/-- First code points of decimal-digit runs `0`-`9`: the ASCII digits and
the common non-ASCII Unicode Nd blocks (Arabic-Indic, Extended
Arabic-Indic, Devanagari, Bengali, Gurmukhi, Gujarati, Oriya, Tamil,
Telugu, Kannada, Malayalam, Thai, Lao, Tibetan, Myanmar, Khmer,
Mongolian, Fullwidth).  Each block is ten consecutive code points with
values 0-9. -/
def ndBases : List ℕ :=
  [0x30, 0x660, 0x6F0, 0x966, 0x9E6, 0xA66, 0xAE6, 0xB66, 0xBE6, 0xC66,
   0xCE6, 0xD66, 0xE50, 0xED0, 0xF20, 0x1040, 0x17E0, 0x1810, 0xFF10]

/-- Decimal digit in the sense of the regex class `\d` on Python str
patterns: any Unicode decimal digit, modelled over the blocks of
`ndBases` (not merely the ASCII digits). -/
def isDigitC (c : Char) : Bool :=
  ndBases.any (fun b => b ≤ c.toNat && c.toNat ≤ b + 9)

/-- Numeric value 0-9 of a decimal digit (only applied to characters
satisfying `isDigitC`; the fallback 0 is never reached there). -/
def digitVal (c : Char) : ℕ :=
  match ndBases.find? (fun b => b ≤ c.toNat && c.toNat ≤ b + 9) with
  | some b => c.toNat - b
  | none => 0

/-- ASCII whitespace, the model of `\s` and of `str.isspace`/`strip`/`split`. -/
def isSpaceC (c : Char) : Bool :=
  c == ' ' || c == '\t' || c == '\n' || c == '\r' || c == '\x0b' || c == '\x0c'

/-- The character class `[A-Za-zÄäÖöÜüß]` of the quantity regex. -/
def isLetterG (c : Char) : Bool :=
  ('A' ≤ c && c ≤ 'Z') || ('a' ≤ c && c ≤ 'z') ||
  c == 'Ä' || c == 'ä' || c == 'Ö' || c == 'ö' || c == 'Ü' || c == 'ü' || c == 'ß'

/-- Python `str.strip()`: remove leading and trailing whitespace. -/
def pyStrip (s : List Char) : List Char :=
  ((s.dropWhile isSpaceC).reverse.dropWhile isSpaceC).reverse

/-- Python `str.endswith(suffx)`. -/
def pyEndsWith (s suffx : List Char) : Bool := suffx.isSuffixOf s

/-- Worker for `pySplit`; `acc` holds the current word reversed. -/
def pySplitGo : List Char → List Char → List (List Char)
  | [], acc => if acc.isEmpty then [] else [acc.reverse]
  | c :: rest, acc =>
    if isSpaceC c then
      if acc.isEmpty then pySplitGo rest [] else acc.reverse :: pySplitGo rest []
    else pySplitGo rest (c :: acc)

/-- Python `str.split()`: split on whitespace runs, dropping empty parts. -/
def pySplit (s : List Char) : List (List Char) := pySplitGo s []

/-- Python substring containment `needle in hay`. -/
def containsSub : List Char → List Char → Bool
  | [], needle => needle.isEmpty
  | c :: rest, needle => needle.isPrefixOf (c :: rest) || containsSub rest needle

/-- Python `str.isspace()`: nonempty and all whitespace. -/
def pyIsSpaceStr (s : List Char) : Bool := !s.isEmpty && s.all isSpaceC

/-- Numeric value of a string of decimal digits. -/
def digitsVal (l : List Char) : ℕ := l.foldl (fun a c => a * 10 + digitVal c) 0

/-- Split a character list at every `'.'` (used to model `float` parsing). -/
def splitOnDot : List Char → List (List Char)
  | [] => [[]]
  | c :: rest =>
    if c == '.' then [] :: splitOnDot rest
    else
      match splitOnDot rest with
      | [] => [[c]]
      | h :: t => (c :: h) :: t

/-- Exact decimal number `mant / 10 ^ exp`: the model of the Python floats
produced by this program (all of which are exact decimal values). -/
structure DecNum where
  mant : ℤ
  exp : ℕ
deriving DecidableEq, Repr

/-- The rational value of a `DecNum`. -/
def toRat (d : DecNum) : ℚ := (d.mant : ℚ) / (10 : ℚ) ^ d.exp

/-- Model of Python `float(s)` on the strings this program builds: an
optional single `'.'` between digit runs; anything else raises
`ValueError`, i.e. returns `none`. -/
def parseFloat (l : List Char) : Option DecNum :=
  match splitOnDot l with
  | [a] =>
    if !a.isEmpty && a.all isDigitC then some ⟨(digitsVal a : ℤ), 0⟩ else none
  | [a, b] =>
    if (!a.isEmpty || !b.isEmpty) && a.all isDigitC && b.all isDigitC then
      some ⟨(digitsVal a : ℤ) * 10 ^ b.length + (digitsVal b : ℤ), b.length⟩
    else none
  | _ => none

/-- `convert_german_number` (main.py lines 20-24): strip thousands dots,
turn the decimal comma into a dot, and parse as a float. -/
def convert_german_number (s : List Char) : Option DecNum :=
  parseFloat ((s.filter (fun c => !(c == '.'))).map (fun c => if c == ',' then '.' else c))

/-- Python `round`: round half to even, on the exact decimal value. -/
def pyRound (d : DecNum) : ℤ :=
  let p : ℤ := 10 ^ d.exp
  let f := d.mant / p
  let m := d.mant % p
  if 2 * m < p then f
  else if p < 2 * m then f + 1
  else if f % 2 = 0 then f else f + 1

/-- Fueled digit counter. -/
def digitsLenGo : ℕ → ℕ → ℕ
  | 0, _ => 1
  | fuel + 1, n => if n < 10 then 1 else digitsLenGo fuel (n / 10) + 1

/-- Number of decimal digits of `n`, i.e. the length of `str(n)` for `n ≥ 0`. -/
def digitsLen (n : ℕ) : ℕ := digitsLenGo n n

/-- `round_to_significant` (main.py lines 35-53).  The Python comparisons of
the float `number` with `100`, `1000`, `100000` and the divisions by
`magnitude`, `1000`, `100` (all powers of ten) are exact on `DecNum`:
`number < c` is `mant < c * 10 ^ exp` and `number / 10 ^ j` is
`⟨mant, exp + j⟩`.  `num_length` is the digit count of
`f"{number:,.0f}"` without separators, i.e. of `round(number)`. -/
def round_to_significant (d : DecNum) : ℤ :=
  let p : ℤ := 10 ^ d.exp
  if d.mant < 100 * p then pyRound d
  else
    let num_length := digitsLen (pyRound d).natAbs
    if 100000 * p ≤ d.mant then
      let k := num_length - 3
      pyRound ⟨d.mant, d.exp + k⟩ * 10 ^ k
    else if 1000 * p ≤ d.mant then pyRound ⟨d.mant, d.exp + 3⟩ * 1000
    else pyRound ⟨d.mant, d.exp + 2⟩ * 100

/-- Python `str` of an integer, as characters. -/
def intToChars (n : ℤ) : List Char :=
  if n < 0 then '-' :: Nat.toDigits 10 n.natAbs else Nat.toDigits 10 n.natAbs

/-- Insert `'.'` after every three characters of a reversed digit string. -/
def group3Rev : ℕ → List Char → List Char
  | _, [] => []
  | 0, l => l
  | fuel + 1, l =>
    if (l.drop 3).isEmpty then l.take 3
    else l.take 3 ++ '.' :: group3Rev fuel (l.drop 3)

/-- `f"{number:,}".replace(',', '.')`: thousands grouping with dots. -/
def groupDots (l : List Char) : List Char := (group3Rev l.length l.reverse).reverse

/-- `format_german_number` (main.py lines 26-33). -/
def format_german_number (number : ℤ) (is_count : Bool) : List Char :=
  if !is_count then intToChars number
  else if 1000 ≤ number then groupDots (intToChars number)
  else intToChars number

/-- `simplify_percentage` (main.py lines 55-72), acting on the parsed value;
the float comparisons with integers are exact on `DecNum`. -/
def simplify_percentage (d : DecNum) : List Char :=
  let p : ℤ := 10 ^ d.exp
  if d.mant = 25 * p then ("jeder Vierte").toList
  else if d.mant = 50 * p then ("die Hälfte").toList
  else if d.mant = 75 * p then ("drei von vier").toList
  else if 90 * p ≤ d.mant then ("fast alle").toList
  else if 50 * p < d.mant then ("mehr als die Hälfte").toList
  else if d.mant ≤ 15 * p then ("wenige").toList
  else ("etwa ").toList ++ intToChars (pyRound d) ++ (" Prozent").toList

/-- `looks_like_year` (main.py lines 74-89).  Note that `before_text` is
stripped before the `endswith(("Jahr ", "Jahre "))` test, exactly as in the
source. -/
def looks_like_year (text : List Char) (pos : ℕ) (number : ℤ) : Bool :=
  let before_text := pyStrip (text.take pos)
  if pyEndsWith before_text (("Jahr ").toList) || pyEndsWith before_text (("Jahre ").toList) then
    false
  else if 1900 ≤ number ∧ number ≤ 2100 then true
  else false

/-- `simplify_regular_number` (main.py lines 91-107): `g1` is the numeral
group, `g2` the captured suffix; on parse failure the original numeral
string is returned. -/
def simplify_regular_number (text : List Char) (pos : ℕ) (g1 g2 : List Char) : List Char :=
  match convert_german_number g1 with
  | none => g1
  | some number =>
    let rounded := round_to_significant number
    let is_count := !looks_like_year text pos (pyRound number)
    ("etwa ").toList ++ format_german_number rounded is_count ++
      (if g2.isEmpty then [] else ' ' :: g2)

/-- The German month names (main.py lines 120-121 and 146-147). -/
def months : List (List Char) :=
  [("Januar").toList, ("Februar").toList, ("März").toList, ("April").toList,
   ("Mai").toList, ("Juni").toList, ("Juli").toList, ("August").toList,
   ("September").toList, ("Oktober").toList, ("November").toList, ("Dezember").toList]

/-- `re.match(r'\d+\.', w)` on a window `w`: a nonempty digit run followed
by a dot (the regex needs no backtracking: a shorter digit run is followed
by a digit, never by the dot). -/
def matchDigitsDot (s : List Char) : Bool :=
  let ds := s.takeWhile isDigitC
  !ds.isEmpty && ((s.drop ds.length).head? == some '.')

/-- Python `text[pos-2:pos]`: for `pos ≥ 2` the two preceding characters;
for `pos = 1` the slice `text[-1:1]` is empty (the negative index wraps
past the stop bound). -/
def sliceTwoBefore (text : List Char) (pos : ℕ) : List Char :=
  if 2 ≤ pos then (text.take pos).drop (pos - 2) else []

/-- `is_part_of_date` (main.py lines 109-126). -/
def is_part_of_date (text : List Char) (pos : ℕ) : Bool :=
  if 0 < pos && pyIsSpaceStr (sliceTwoBefore text pos) &&
      matchDigitsDot ((text.drop pos).take 4) then true
  else
    match pySplit ((text.drop pos).take 50) with
    | [] => false
    | w0 :: rest =>
      months.contains w0 ||
        (match rest with
         | w1 :: _ => months.contains w1
         | [] => false)

/-- `is_year` (main.py lines 128-152).  `none` models the uncaught
IndexError raised by `before_words[-1]` when `before_words` is empty. -/
def is_year (text : List Char) (pos : ℕ) : Option Bool :=
  let before_text := pyStrip (text.take pos)
  let ds := (text.drop pos).takeWhile isDigitC
  if ds.isEmpty then some false
  else if pyEndsWith before_text (("Jahr").toList) then some true
  else if ds.length = 4 && ((("19").toList).isPrefixOf ds || (("20").toList).isPrefixOf ds) then
    match (pySplit before_text).getLast? with
    | none => none
    | some w => some (months.any (fun m => containsSub w m))
  else some false

/-- Greedy matcher for the percentage regex `(\d+(?:,\d+)?)\s*Prozent` at
the start of `s`; returns the parsed group-1 value and the match length. -/
def matchPercentAt (s : List Char) : Option (DecNum × ℕ) :=
  let ds := s.takeWhile isDigitC
  if ds.isEmpty then none
  else
    let rest1 := s.drop ds.length
    let fs :=
      match rest1 with
      | ',' :: r => r.takeWhile isDigitC
      | _ => []
    let g1len := if fs.isEmpty then ds.length else ds.length + 1 + fs.length
    let rest2 := s.drop g1len
    let ws := rest2.takeWhile isSpaceC
    let rest3 := rest2.drop ws.length
    if (("Prozent").toList).isPrefixOf rest3 then
      some (⟨(digitsVal ds : ℤ) * 10 ^ fs.length + (digitsVal fs : ℤ), fs.length⟩,
        g1len + ws.length + 7)
    else none

/-- `re.sub` scanning for the percentage pass: try a match at every
position, replace and continue after the match, else advance one
character. -/
def percentSubGo : ℕ → List Char → List Char
  | _, [] => []
  | 0, s => s
  | fuel + 1, c :: rest =>
    match matchPercentAt (c :: rest) with
    | some (v, len) => simplify_percentage v ++ percentSubGo fuel ((c :: rest).drop len)
    | none => c :: percentSubGo fuel rest

/-- Pass 1 of `simplify_numbers` (main.py line 158). -/
def percentPass (s : List Char) : List Char := percentSubGo s.length s

/-- The `(?:\.\d+)*` loop of the quantity regex: absorb maximal `.digits`
groups; returns the absorbed characters and the remaining input. -/
def dotGroupsGo : ℕ → List Char → List Char × List Char
  | 0, s => ([], s)
  | fuel + 1, s =>
    match s with
    | '.' :: r =>
      let ds2 := r.takeWhile isDigitC
      if ds2.isEmpty then ([], '.' :: r)
      else
        let step := dotGroupsGo fuel (r.drop ds2.length)
        ('.' :: (ds2 ++ step.1), step.2)
    | _ => ([], s)

/-- Greedy matcher for the quantity regex
`(\d+(?:\.\d+)*(?:,\d+)?)\s*((?:Euro|[A-Za-zÄäÖöÜüß]+)?)` at the start of
`s`; returns group 1, the length of the whole match and group 2. -/
def matchQuantAt (s : List Char) : Option (List Char × ℕ × List Char) :=
  let ds := s.takeWhile isDigitC
  if ds.isEmpty then none
  else
    let dotStep := dotGroupsGo s.length (s.drop ds.length)
    let commaStep : List Char × List Char :=
      match dotStep.2 with
      | ',' :: r =>
        let fs := r.takeWhile isDigitC
        if fs.isEmpty then ([], ',' :: r) else (',' :: fs, r.drop fs.length)
      | _ => ([], dotStep.2)
    let g1 := ds ++ dotStep.1 ++ commaStep.1
    let ws := commaStep.2.takeWhile isSpaceC
    let rest3 := commaStep.2.drop ws.length
    let g2 :=
      if (("Euro").toList).isPrefixOf rest3 then ("Euro").toList
      else rest3.takeWhile isLetterG
    some (g1, g1.length + ws.length + g2.length, g2)

/-- Index of the first ASCII digit of `s`, if any: the start position of
the next `finditer` match of the quantity regex. -/
def firstDigitIdx : List Char → Option ℕ
  | [] => none
  | c :: rest => if isDigitC c then some 0 else (firstDigitIdx rest).map (· + 1)

/-- First position `≥ pos` in `text` holding a digit. -/
def findDigit (text : List Char) (pos : ℕ) : Option ℕ :=
  (firstDigitIdx (text.drop pos)).map (pos + ·)

/-- The per-match branch of the orchestrator loop (main.py lines 172-178):
pass the match through verbatim when `is_part_of_date` or `is_year` says
so (short-circuit `or`, so `is_year` is not reached when the first test
succeeds), otherwise rewrite it; `none` propagates the `is_year` crash. -/
def classifyRepl (text : List Char) (p : ℕ) (g1 : List Char) (g0len : ℕ) (g2 : List Char) :
    Option (List Char) :=
  if is_part_of_date text p then some ((text.drop p).take g0len)
  else
    match is_year text p with
    | none => none
    | some true => some ((text.drop p).take g0len)
    | some false => some (simplify_regular_number text p g1 g2)

/-- The orchestrator loop over `finditer` matches (main.py lines 164-183):
append the untouched gap, then the replacement, and continue after the
match; the final gap is the remaining text. -/
def quantGo (text : List Char) : ℕ → ℕ → Option (List Char)
  | 0, _ => none
  | fuel + 1, pos =>
    match findDigit text pos with
    | none => some (text.drop pos)
    | some p =>
      match matchQuantAt (text.drop p) with
      | none => none
      | some (g1, g0len, g2) =>
        match classifyRepl text p g1 g0len g2 with
        | none => none
        | some repl =>
          match quantGo text fuel (p + g0len) with
          | none => none
          | some tail => some ((text.drop pos).take (p - pos) ++ repl ++ tail)

/-- Pass 2 of `simplify_numbers`: every match consumes at least one
character, so `text.length + 1` units of fuel always complete the scan. -/
def quantPass (text : List Char) : Option (List Char) := quantGo text (text.length + 1) 0

/-- `simplify_numbers` (main.py lines 4-185): percentage pass, then the
quantity/date/year pass.  `none` models an uncaught exception. -/
def simplify_numbers (raw : String) : Option String :=
  (quantPass (percentPass raw.toList)).map (fun l => String.mk l)

/-- A segment of the quantity pass output: either an untouched gap, or a
token match (at some position `p`) together with its rendered
replacement. -/
def GapOrTok (text : List Char) (seg : List Char × List Char) : Prop :=
  seg.2 = seg.1 ∨
    ∃ p g1 g0len g2, matchQuantAt (text.drop p) = some (g1, g0len, g2) ∧
      seg.1 = (text.drop p).take g0len ∧
      classifyRepl text p g1 g0len g2 = some seg.2

/-- Rounding to the nearest integer with ties away from zero (for
non-negative values), as the claim about `round_to_significant` below 100
describes it; stated from the spec's words, to compare with the code's
`pyRound`. -/
def specRoundHalfAwayFromZero (q : ℚ) : ℤ := ⌊q + 1 / 2⌋

/-! ### Value bridge lemmas -/

lemma pow10_posQ (k : ℕ) : (0 : ℚ) < 10 ^ k := by positivity

lemma toRat_eq_int_iff (d : DecNum) (m : ℤ) :
    toRat d = (m : ℚ) ↔ d.mant = m * 10 ^ d.exp := by
  unfold toRat
  rw [div_eq_iff (ne_of_gt (pow10_posQ d.exp))]
  constructor <;> intro h <;> exact_mod_cast h

lemma int_le_toRat_iff (m : ℤ) (d : DecNum) :
    (m : ℚ) ≤ toRat d ↔ m * 10 ^ d.exp ≤ d.mant := by
  unfold toRat
  rw [le_div_iff₀ (pow10_posQ d.exp)]
  constructor <;> intro h <;> exact_mod_cast h

lemma int_lt_toRat_iff (m : ℤ) (d : DecNum) :
    (m : ℚ) < toRat d ↔ m * 10 ^ d.exp < d.mant := by
  unfold toRat
  rw [lt_div_iff₀ (pow10_posQ d.exp)]
  constructor <;> intro h <;> exact_mod_cast h

lemma toRat_le_int_iff (d : DecNum) (m : ℤ) :
    toRat d ≤ (m : ℚ) ↔ d.mant ≤ m * 10 ^ d.exp := by
  unfold toRat
  rw [div_le_iff₀ (pow10_posQ d.exp)]
  constructor <;> intro h <;> exact_mod_cast h

lemma toRat_lt_int_iff (d : DecNum) (m : ℤ) :
    toRat d < (m : ℚ) ↔ d.mant < m * 10 ^ d.exp := by
  unfold toRat
  rw [div_lt_iff₀ (pow10_posQ d.exp)]
  constructor <;> intro h <;> exact_mod_cast h

/-- The branch conditions of `simplify_percentage`, restated on the value. -/
lemma simplify_percentage_ratSpec (d : DecNum) :
    simplify_percentage d =
      if toRat d = 25 then ("jeder Vierte").toList
      else if toRat d = 50 then ("die Hälfte").toList
      else if toRat d = 75 then ("drei von vier").toList
      else if 90 ≤ toRat d then ("fast alle").toList
      else if 50 < toRat d then ("mehr als die Hälfte").toList
      else if toRat d ≤ 15 then ("wenige").toList
      else ("etwa ").toList ++ intToChars (pyRound d) ++ (" Prozent").toList := by
  have h25 := toRat_eq_int_iff d 25
  have h50 := toRat_eq_int_iff d 50
  have h75 := toRat_eq_int_iff d 75
  have h90 := int_le_toRat_iff 90 d
  have h50lt := int_lt_toRat_iff 50 d
  have h15 := toRat_le_int_iff d 15
  norm_num at h25 h50 h75 h90 h50lt h15
  simp only [simplify_percentage, ← h25, ← h50, ← h75, ← h90, ← h50lt, ← h15]

/-- Claim C4: for every percentage value N, the replacement is
"jeder Vierte" for N = 25, "die Hälfte" for N = 50, "drei von vier" for
N = 75, "fast alle" for N ≥ 90, "mehr als die Hälfte" for 50 < N < 90
with N ≠ 75 (so all of 76-89), "wenige" for N ≤ 15, and otherwise
"etwa {N rounded to the nearest integer} Prozent". -/
theorem C4_percentage_mapping (d : DecNum) :
    (toRat d = 25 → simplify_percentage d = ("jeder Vierte").toList) ∧
    (toRat d = 50 → simplify_percentage d = ("die Hälfte").toList) ∧
    (toRat d = 75 → simplify_percentage d = ("drei von vier").toList) ∧
    (90 ≤ toRat d → simplify_percentage d = ("fast alle").toList) ∧
    (50 < toRat d → toRat d < 90 → toRat d ≠ 75 →
      simplify_percentage d = ("mehr als die Hälfte").toList) ∧
    (toRat d ≤ 15 → simplify_percentage d = ("wenige").toList) ∧
    (15 < toRat d → toRat d < 50 → toRat d ≠ 25 →
      simplify_percentage d = ("etwa ").toList ++ intToChars (pyRound d) ++ (" Prozent").toList) := by
  rw [simplify_percentage_ratSpec]
  refine ⟨?_, ?_, ?_, ?_, ?_, ?_, ?_⟩ <;> intros <;>
    split_ifs <;> first | rfl | tauto | linarith

/-- Witness for C4 at the concrete value 25 (the parsed form of "25"). -/
theorem C4_percentage_mapping_witness :
    simplify_percentage ⟨25, 0⟩ = ("jeder Vierte").toList :=
  (C4_percentage_mapping ⟨25, 0⟩).1 (by norm_num [toRat])

/-- Claim C5: the four documented rounding examples of
`round_to_significant` (on the parsed decimal values 324620, 1897, 150
and 42). -/
theorem C5_rounding_examples :
    round_to_significant ⟨324620, 0⟩ = 325000 ∧
    round_to_significant ⟨1897, 0⟩ = 2000 ∧
    round_to_significant ⟨150, 0⟩ = 200 ∧
    round_to_significant ⟨42, 0⟩ = 42 := by
  decide

/-- Claim C7: the end-to-end example "324.620,22 Euro wurden gespendet."
is rewritten to "etwa 325.000 Euro wurden gespendet.", keeping the "Euro"
suffix and absorbing the decimal part into the rounding. -/
theorem C7_end_to_end :
    simplify_numbers ("324.620,22 Euro wurden gespendet.") =
      some ("etwa 325.000 Euro wurden gespendet.") := by
  decide

/-- Claim C1 (refuted by the code): `simplify_numbers` is supposed never
to raise, but on the input "1984" the call `before_words[-1]` in
`is_year` raises an IndexError (`before_words` is empty because nothing
precedes the 4-digit number); the model returns `none` exactly there. -/
theorem C1_crash_eval : simplify_numbers ("1984") = none := by
  decide

/-- Claim C3 (refuted by the code): after "Jahre " the number 5.678 is
simplified as a quantity, and the claim says its is-count flag is false
(no grouping); the code's `strip()` makes the `endswith(("Jahr ",
"Jahre "))` test unsatisfiable, so the flag stays true and the rewritten
value is grouped as "6.000". -/
theorem C3_grouped_after_jahre :
    simplify_numbers ("Im Jahre 5.678 Dinge") = some ("Im Jahre etwa 6.000 Dinge") := by
  decide

/-- Claim C2 (refuted by the code): in "Es waren 1950 Leute." the token
"1950" has value 1950 ∈ [1900, 2100] and the preceding text does not end
in "Jahr "/"Jahre ", yet the orchestrator does not pass it through: the
replacement is "etwa 2000 Leute" (the range check only suppresses
grouping; it lives in `looks_like_year`, not in `is_year`). -/
theorem C2_counterexample :
    matchQuantAt ((("Es waren 1950 Leute.").toList).drop 9) =
      some (("1950").toList, 10, ("Leute").toList) ∧
    convert_german_number (("1950").toList) = some ⟨1950, 0⟩ ∧
    (1900 ≤ (1950 : ℤ) ∧ (1950 : ℤ) ≤ 2100) ∧
    pyEndsWith (pyStrip ((("Es waren 1950 Leute.").toList).take 9)) (("Jahr ").toList) = false ∧
    pyEndsWith (pyStrip ((("Es waren 1950 Leute.").toList).take 9)) (("Jahre ").toList) = false ∧
    classifyRepl (("Es waren 1950 Leute.").toList) 9 (("1950").toList) 10 (("Leute").toList) =
      some (("etwa 2000 Leute").toList) ∧
    ¬ (("etwa 2000 Leute").toList =
        ((("Es waren 1950 Leute.").toList).drop 9).take 10) ∧
    simplify_numbers ("Es waren 1950 Leute.") = some ("Es waren etwa 2000 Leute.") := by
  decide

/-- Claim C2 (amended): a numeral whose parsed value rounds into
[1900, 2100] and whose preceding text does not end in "Jahr "/"Jahre " is
treated as year-like only by the quantity rewriter: `looks_like_year` is
true, so the is-count flag is false and the simplified value is rendered
without thousands-grouping separators (it is not passed through). -/
theorem C2_year_range_no_grouping (text : List Char) (pos : ℕ) (g1 g2 : List Char) (v : DecNum)
    (hconv : convert_german_number g1 = some v)
    (h1 : 1900 ≤ pyRound v) (h2 : pyRound v ≤ 2100)
    (hJ1 : pyEndsWith (pyStrip (text.take pos)) (("Jahr ").toList) = false)
    (hJ2 : pyEndsWith (pyStrip (text.take pos)) (("Jahre ").toList) = false) :
    looks_like_year text pos (pyRound v) = true ∧
    simplify_regular_number text pos g1 g2 =
      ("etwa ").toList ++ intToChars (round_to_significant v) ++
        (if g2.isEmpty then [] else ' ' :: g2) := by
  have hly : looks_like_year text pos (pyRound v) = true := by
    simp [looks_like_year, hJ1, hJ2, h1, h2]
    exact ⟨hJ1, hJ2⟩
  refine ⟨hly, ?_⟩
  unfold simplify_regular_number
  rw [hconv]
  simp only [hly, Bool.not_true, format_german_number, Bool.not_false, if_true]

/-- Witness for the amended C2 on "Es waren 1950 Leute.". -/
theorem C2_year_range_no_grouping_witness :
    looks_like_year (("Es waren 1950 Leute.").toList) 9 (pyRound ⟨1950, 0⟩) = true ∧
    simplify_regular_number (("Es waren 1950 Leute.").toList) 9 (("1950").toList)
        (("Leute").toList) =
      ("etwa ").toList ++ intToChars (round_to_significant ⟨1950, 0⟩) ++
        (if (("Leute").toList).isEmpty then [] else ' ' :: ("Leute").toList) :=
  C2_year_range_no_grouping (("Es waren 1950 Leute.").toList) 9 (("1950").toList)
    (("Leute").toList) ⟨1950, 0⟩ (by decide) (by decide) (by decide) (by decide) (by decide)

/-- Claim C9 (refuted by the code): in " 1,5.2 " the numeral token "1,5"
at position 1 is preceded only by whitespace and followed by a dot and a
digit, yet `is_part_of_date` is false (the code demands two whitespace
characters before the token, and its regex check `\d+\.` fails on the
comma), so the token is simplified to "etwa 2" instead of being passed
through. -/
theorem C9_counterexample :
    matchQuantAt (((" 1,5.2 ").toList).drop 1) = some (("1,5").toList, 3, []) ∧
    ((" 1,5.2 ").toList).take 1 = [' '] ∧
    ((((" 1,5.2 ").toList).drop 4).take 2 = ('.' :: [])  ++ ['2']) ∧
    is_part_of_date ((" 1,5.2 ").toList) 1 = false ∧
    classifyRepl ((" 1,5.2 ").toList) 1 (("1,5").toList) 3 [] = some (("etwa 2").toList) ∧
    ¬ (("etwa 2").toList = ((((" 1,5.2 ").toList).drop 1).take 3)) ∧
    simplify_numbers (" 1,5.2 ") = some (" etwa 2.etwa 2") := by
  decide

/-- Claim C9 (amended): a numeral token whose two immediately preceding
characters are both whitespace and whose text, from the token start,
matches a digit run followed by a dot within a 4-character window, is
classified as a DateComponent by `is_part_of_date` and its matched text
is emitted verbatim by the orchestrator branch. -/
theorem C9_date_pass_through (text : List Char) (p : ℕ) (g1 : List Char) (g0len : ℕ)
    (g2 : List Char) (hp : 2 ≤ p)
    (hws : pyIsSpaceStr ((text.take p).drop (p - 2)) = true)
    (hdd : matchDigitsDot ((text.drop p).take 4) = true) :
    is_part_of_date text p = true ∧
    classifyRepl text p g1 g0len g2 = some ((text.drop p).take g0len) := by
  have hsl : sliceTwoBefore text p = (text.take p).drop (p - 2) := by
    unfold sliceTwoBefore
    rw [if_pos hp]
  have hdate : is_part_of_date text p = true := by
    unfold is_part_of_date
    have h0 : 0 < p := lt_of_lt_of_le (by norm_num) hp
    rw [hsl] at *
    simp [hsl, hws, hdd, h0]
  exact ⟨hdate, by simp [classifyRepl, hdate]⟩

/-- Witness for the amended C9 on "a  1. b" (token "1" at position 3). -/
theorem C9_date_pass_through_witness :
    is_part_of_date (("a  1. b").toList) 3 = true ∧
    classifyRepl (("a  1. b").toList) 3 [Char.ofNat 49] 1 [] =
      some (((("a  1. b").toList).drop 3).take 1) :=
  C9_date_pass_through (("a  1. b").toList) 3 [Char.ofNat 49] 1 []
    (by norm_num) (by decide) (by decide)

/-- Decomposition of a decimal value into its rounded-down integer part
and a fractional remainder. -/
lemma toRat_decomp (d : DecNum) :
    toRat d = ((d.mant / 10 ^ d.exp : ℤ) : ℚ) +
      ((d.mant % 10 ^ d.exp : ℤ) : ℚ) / (10 : ℚ) ^ d.exp := by
  have hp : ((10 : ℚ) ^ d.exp) ≠ 0 := ne_of_gt (pow10_posQ d.exp)
  have hsum : ((10 ^ d.exp : ℤ) : ℚ) * ((d.mant / 10 ^ d.exp : ℤ) : ℚ) +
      ((d.mant % 10 ^ d.exp : ℤ) : ℚ) = (d.mant : ℚ) := by
    exact_mod_cast congrArg (Int.cast : ℤ → ℚ) (Int.ediv_add_emod d.mant (10 ^ d.exp))
  unfold toRat
  rw [← hsum]
  push_cast
  field_simp
  ring

/-- Banker's rounding is at distance at most one half from the value. -/
lemma pyRound_half_le (d : DecNum) : |((pyRound d : ℤ) : ℚ) - toRat d| ≤ 1 / 2 := by
  have hp : (0 : ℤ) < 10 ^ d.exp := by positivity
  have hpQ : (0 : ℚ) < (10 : ℚ) ^ d.exp := pow10_posQ d.exp
  have hm0 : (0 : ℤ) ≤ d.mant % 10 ^ d.exp := Int.emod_nonneg _ (ne_of_gt hp)
  have hmp : d.mant % 10 ^ d.exp < 10 ^ d.exp := Int.emod_lt_of_pos _ hp
  have hval := toRat_decomp d
  have hfrac0 : (0 : ℚ) ≤ ((d.mant % 10 ^ d.exp : ℤ) : ℚ) / (10 : ℚ) ^ d.exp :=
    div_nonneg (by exact_mod_cast hm0) (le_of_lt hpQ)
  have hfrac1 : ((d.mant % 10 ^ d.exp : ℤ) : ℚ) / (10 : ℚ) ^ d.exp < 1 := by
    rw [div_lt_one hpQ]
    exact_mod_cast hmp
  have key1 : 2 * (d.mant % 10 ^ d.exp) ≤ 10 ^ d.exp →
      |((d.mant / 10 ^ d.exp : ℤ) : ℚ) - toRat d| ≤ 1 / 2 := by
    intro hle
    have hc : 2 * ((d.mant % 10 ^ d.exp : ℤ) : ℚ) ≤ ((10 : ℚ)) ^ d.exp := by exact_mod_cast hle
    have h' : ((d.mant % 10 ^ d.exp : ℤ) : ℚ) / (10 : ℚ) ^ d.exp ≤ 1 / 2 := by
      rw [div_le_iff₀ hpQ]
      linarith
    rw [hval, abs_le]
    constructor <;> linarith
  have key2 : 10 ^ d.exp ≤ 2 * (d.mant % 10 ^ d.exp) →
      |(((d.mant / 10 ^ d.exp : ℤ) + 1 : ℤ) : ℚ) - toRat d| ≤ 1 / 2 := by
    intro hge
    have hc : ((10 : ℚ)) ^ d.exp ≤ 2 * ((d.mant % 10 ^ d.exp : ℤ) : ℚ) := by exact_mod_cast hge
    have h' : 1 / 2 ≤ ((d.mant % 10 ^ d.exp : ℤ) : ℚ) / (10 : ℚ) ^ d.exp := by
      rw [le_div_iff₀ hpQ]
      linarith
    rw [hval, abs_le]
    constructor <;> push_cast <;> linarith
  simp only [pyRound]
  split_ifs with hc1 hc2 hc3
  · exact key1 (le_of_lt hc1)
  · exact key2 (le_of_lt hc2)
  · exact key1 (not_lt.mp hc2)
  · exact key2 (not_lt.mp hc1)

/-- Banker's rounding at an exact half: the even neighbour is chosen. -/
lemma pyRound_tie (d : DecNum) (k : ℤ) (hk : toRat d = (k : ℚ) + 1 / 2) :
    pyRound d = if k % 2 = 0 then k else k + 1 := by
  have hp : (0 : ℤ) < 10 ^ d.exp := by positivity
  have hpQ : (0 : ℚ) < (10 : ℚ) ^ d.exp := pow10_posQ d.exp
  have hm0 : (0 : ℤ) ≤ d.mant % 10 ^ d.exp := Int.emod_nonneg _ (ne_of_gt hp)
  have hmp : d.mant % 10 ^ d.exp < 10 ^ d.exp := Int.emod_lt_of_pos _ hp
  have hval := toRat_decomp d
  have hfrac0 : (0 : ℚ) ≤ ((d.mant % 10 ^ d.exp : ℤ) : ℚ) / (10 : ℚ) ^ d.exp :=
    div_nonneg (by exact_mod_cast hm0) (le_of_lt hpQ)
  have hfrac1 : ((d.mant % 10 ^ d.exp : ℤ) : ℚ) / (10 : ℚ) ^ d.exp < 1 := by
    rw [div_lt_one hpQ]
    exact_mod_cast hmp
  have hfk : d.mant / 10 ^ d.exp = k := by
    have a1 : ((d.mant / 10 ^ d.exp : ℤ) : ℚ) < (k : ℚ) + 1 := by
      rw [hval] at hk
      linarith
    have a2 : (k : ℚ) < ((d.mant / 10 ^ d.exp : ℤ) : ℚ) + 1 := by
      rw [hval] at hk
      linarith
    have b1 : d.mant / 10 ^ d.exp < k + 1 := by exact_mod_cast a1
    have b2 : k < d.mant / 10 ^ d.exp + 1 := by exact_mod_cast a2
    omega
  have hfrac : ((d.mant % 10 ^ d.exp : ℤ) : ℚ) / (10 : ℚ) ^ d.exp = 1 / 2 := by
    rw [hval, hfk] at hk
    linarith
  have h2m : 2 * (d.mant % 10 ^ d.exp) = 10 ^ d.exp := by
    have h' : 2 * ((d.mant % 10 ^ d.exp : ℤ) : ℚ) = (10 : ℚ) ^ d.exp := by
      have h2 := hfrac
      field_simp at h2
      linarith
    exact_mod_cast h'
  simp only [pyRound]
  rw [h2m, hfk]
  simp

/-- Claim C6 (refuted by the code): at the value 2.5 (the decimal 25/10),
`round_to_significant` returns 2 (Python `round` is round half to even),
not the 3 that rounding ties away from zero would give. -/
theorem C6_counterexample :
    toRat ⟨25, 1⟩ = 5 / 2 ∧
    round_to_significant ⟨25, 1⟩ = 2 ∧
    specRoundHalfAwayFromZero (5 / 2) = 3 ∧
    (2 : ℤ) ≠ 3 := by
  refine ⟨by norm_num [toRat], by decide, ?_, by decide⟩
  unfold specRoundHalfAwayFromZero
  rw [show (5 : ℚ) / 2 + 1 / 2 = ((3 : ℤ) : ℚ) by norm_num]
  exact Int.floor_intCast 3

/-- Claim C6 (amended): for every non-negative value below 100,
`round_to_significant` rounds to the nearest integer, with exact halves
going to the even neighbour (round half to even, so 2.5 rounds to 2). -/
theorem C6_below_100 (d : DecNum) (_h0 : 0 ≤ toRat d) (h100 : toRat d < 100) :
    |((round_to_significant d : ℤ) : ℚ) - toRat d| ≤ 1 / 2 ∧
    ∀ k : ℤ, toRat d = (k : ℚ) + 1 / 2 →
      round_to_significant d = if k % 2 = 0 then k else k + 1 := by
  have hlt : d.mant < 100 * 10 ^ d.exp := by
    have h := (toRat_lt_int_iff d 100).mp (by exact_mod_cast h100)
    exact h
  have hrs : round_to_significant d = pyRound d := by
    simp only [round_to_significant]
    rw [if_pos hlt]
  constructor
  · rw [hrs]
    exact pyRound_half_le d
  · intro k hk
    rw [hrs]
    exact pyRound_tie d k hk

/-- Witness for the amended C6 at the value 2.5. -/
theorem C6_below_100_witness :
    (0 ≤ toRat ⟨25, 1⟩ ∧ toRat ⟨25, 1⟩ < 100) ∧
    |((round_to_significant ⟨25, 1⟩ : ℤ) : ℚ) - toRat ⟨25, 1⟩| ≤ 1 / 2 ∧
    round_to_significant ⟨25, 1⟩ = if (2 : ℤ) % 2 = 0 then 2 else 2 + 1 := by
  have h0 : 0 ≤ toRat ⟨25, 1⟩ := by norm_num [toRat]
  have h1 : toRat ⟨25, 1⟩ < 100 := by norm_num [toRat]
  exact ⟨⟨h0, h1⟩, (C6_below_100 ⟨25, 1⟩ h0 h1).1,
    (C6_below_100 ⟨25, 1⟩ h0 h1).2 2 (by norm_num [toRat])⟩

/-- A successful `findDigit` never returns a position before the scan
start. -/
lemma findDigit_le {text : List Char} {pos p : ℕ} (h : findDigit text pos = some p) :
    pos ≤ p := by
  unfold findDigit at h
  cases hfi : firstDigitIdx (text.drop pos) with
  | none => rw [hfi] at h; simp at h
  | some i =>
    rw [hfi] at h
    simp at h
    omega

/-- Splitting a drop at an interior point. -/
lemma drop_split2 {α : Type} (l : List α) (a k : ℕ) :
    l.drop a = (l.drop a).take k ++ l.drop (a + k) := by
  conv_lhs => rw [← List.take_append_drop k (l.drop a)]
  rw [List.drop_drop]

/-- Every successful run of the orchestrator loop decomposes the scanned
suffix into alternating untouched gaps and token matches, with the output
being the corresponding concatenation of gaps and replacements. -/
lemma quantGo_decomp (text : List Char) :
    ∀ fuel pos out, quantGo text fuel pos = some out →
      ∃ segs : List (List Char × List Char),
        (segs.map Prod.fst).flatten = text.drop pos ∧
        (segs.map Prod.snd).flatten = out ∧
        ∀ seg ∈ segs, GapOrTok text seg := by
  intro fuel
  induction fuel with
  | zero =>
    intro pos out h
    simp [quantGo] at h
  | succ fuel ih =>
    intro pos out h
    rw [quantGo] at h
    split at h
    next hfd =>
      simp only [Option.some.injEq] at h
      subst h
      refine ⟨[(text.drop pos, text.drop pos)], by simp, by simp, ?_⟩
      intro seg hseg
      simp only [List.mem_singleton] at hseg
      subst hseg
      left
      rfl
    next p hfd =>
      split at h
      next hm => exact absurd h (by simp)
      next g1 g0len g2 hm =>
        split at h
        next hc => exact absurd h (by simp)
        next repl hc =>
          split at h
          next ht => exact absurd h (by simp)
          next tail ht =>
            simp only [Option.some.injEq] at h
            obtain ⟨segs, hsrc, hout, hgap⟩ := ih (p + g0len) tail ht
            have hpp : pos ≤ p := findDigit_le hfd
            refine ⟨((text.drop pos).take (p - pos), (text.drop pos).take (p - pos)) ::
              ((text.drop p).take g0len, repl) :: segs, ?_, ?_, ?_⟩
            · have e1 : text.drop pos = (text.drop pos).take (p - pos) ++ text.drop p := by
                have e := drop_split2 text pos (p - pos)
                rwa [Nat.add_sub_cancel' hpp] at e
              have e2 : text.drop p = (text.drop p).take g0len ++ text.drop (p + g0len) :=
                drop_split2 text p g0len
              simp only [List.map_cons, List.flatten_cons]
              rw [hsrc, ← e2, ← e1]
            · simp only [List.map_cons, List.flatten_cons]
              rw [hout, ← h]
              simp [List.append_assoc]
            · intro seg hseg
              simp only [List.mem_cons] at hseg
              rcases hseg with hseg | hseg | hseg
              · subst hseg
                left
                rfl
              · subst hseg
                right
                exact ⟨p, g1, g0len, g2, hm, rfl, hc⟩
              · exact hgap seg hseg

/-- Claim C8: the output of the quantity pass is the concatenation, in
order, of the untouched gaps and the per-token replacements; the gap/match
source segments cover the percentage-processed text exactly once with no
gaps or overlaps, gap segments are emitted verbatim, and every match
segment is a true token match with its rendered replacement. -/
theorem C8_span_decomposition (text out : List Char) (h : quantPass text = some out) :
    ∃ segs : List (List Char × List Char),
      (segs.map Prod.fst).flatten = text ∧
      (segs.map Prod.snd).flatten = out ∧
      ∀ seg ∈ segs, GapOrTok text seg := by
  have hd := quantGo_decomp text (text.length + 1) 0 out h
  simpa using hd

/-- Witness for C8 on the input "a 12 b". -/
theorem C8_span_decomposition_witness :
    quantPass (("a 12 b").toList) = some (("a etwa 12 b").toList) ∧
    ∃ segs : List (List Char × List Char),
      (segs.map Prod.fst).flatten = ("a 12 b").toList ∧
      (segs.map Prod.snd).flatten = ("a etwa 12 b").toList ∧
      ∀ seg ∈ segs, GapOrTok (("a 12 b").toList) seg :=
  ⟨by decide, C8_span_decomposition (("a 12 b").toList) (("a etwa 12 b").toList) (by decide)⟩

/-- The percentage matcher fails where no digit starts. -/
lemma matchPercentAt_none {c : Char} (rest : List Char) (hc : isDigitC c = false) :
    matchPercentAt (c :: rest) = none := by
  simp [matchPercentAt, List.takeWhile_cons, hc]

/-- The percentage pass is the identity on digit-free text. -/
lemma percentSubGo_no_digit : ∀ (fuel : ℕ) (s : List Char),
    (∀ c ∈ s, isDigitC c = false) → percentSubGo fuel s = s := by
  intro fuel
  induction fuel with
  | zero =>
    intro s h
    cases s <;> simp [percentSubGo]
  | succ fuel ih =>
    intro s h
    cases s with
    | nil => simp [percentSubGo]
    | cons c rest =>
      have hc : isDigitC c = false := h c (List.mem_cons_self c rest)
      simp only [percentSubGo, matchPercentAt_none rest hc]
      rw [ih rest (fun x hx => h x (List.mem_cons_of_mem c hx))]

/-- No digit, no token start. -/
lemma firstDigitIdx_none : ∀ s : List Char,
    (∀ c ∈ s, isDigitC c = false) → firstDigitIdx s = none := by
  intro s
  induction s with
  | nil => intro h; rfl
  | cons c rest ih =>
    intro h
    have hc := h c (List.mem_cons_self c rest)
    simp [firstDigitIdx, hc, ih (fun x hx => h x (List.mem_cons_of_mem c hx))]

/-- Claim C10 (refuted as stated): the Arabic-Indic digit five contains no
ASCII digit, yet Python's `\d` matches it and `float` parses it, so
`simplify_numbers` rewrites the input "\u0665" to "etwa 5" instead of
returning it unchanged. -/
theorem C10_counterexample :
    (∀ c ∈ ("\u0665").toList, c.isDigit = false) ∧
    isDigitC (Char.ofNat 0x665) = true ∧
    simplify_numbers ("\u0665") = some ("etwa 5") ∧
    ¬(simplify_numbers ("\u0665") = some ("\u0665")) := by
  decide

/-- Claim C10 (amended): on input containing no decimal digit of the
patterns' digit class `\d` (any modelled Unicode decimal digit, not
merely the ASCII ones), `simplify_numbers` is the identity (and in
particular raises nothing): both passes need a digit to match. -/
theorem C10_digit_free_identity (s : String) (h : ∀ c ∈ s.toList, isDigitC c = false) :
    simplify_numbers s = some s := by
  unfold simplify_numbers quantPass percentPass
  rw [percentSubGo_no_digit s.toList.length s.toList h]
  rw [quantGo]
  rw [show findDigit s.toList 0 = none from by
    unfold findDigit
    rw [List.drop_zero, firstDigitIdx_none s.toList h]
    rfl]
  rfl

/-- Witness for C10 on a digit-free sentence. -/
theorem C10_digit_free_identity_witness :
    simplify_numbers ("Keine Ziffern hier!") = some ("Keine Ziffern hier!") :=
  C10_digit_free_identity ("Keine Ziffern hier!") (by decide)
